import Mathlib

/-!
The byFood backend: books store and URL processor

A shallow embedding of `src/backend` (Go) and proofs of properties of it.

Modelling conventions.

* A Go `string` is a Lean `String`, a sequence of Unicode code points: the
  strings of a request come out of `encoding/json`, which yields valid UTF-8.
* A Go `error` is `Option GoError` (`none` is `nil`); a Go function returning
  `(T, error)` returns a pair.
* `int` and `int64` values are `Int`; the code does no arithmetic on them.
* Library functions (`strings`, `strconv`, `net/url`, `database/sql`) are
  modelled next to the code that calls them.
-/

set_option autoImplicit false

deriving instance DecidableEq for Except

namespace ByFood

/-! ## The `strings` package -/

/-- The predicate `unicode.IsSpace`: the Latin-1 spaces and the code points
with the Unicode property White_Space. -/
def isSpace (c : Char) : Bool :=
  let n := c.toNat
  n == 0x09 || n == 0x0A || n == 0x0B || n == 0x0C || n == 0x0D || n == 0x20 ||
  n == 0x85 || n == 0xA0 || n == 0x1680 || (0x2000 ≤ n && n ≤ 0x200A) ||
  n == 0x2028 || n == 0x2029 || n == 0x202F || n == 0x205F || n == 0x3000

/-- Removes the longest suffix of `l` whose elements all satisfy `p`. -/
def dropTrailing (p : Char → Bool) (l : List Char) : List Char :=
  (l.reverse.dropWhile p).reverse

/-- The function `strings.TrimSpace`: the string without its leading and
trailing white space. -/
def TrimSpace (s : String) : String :=
  ⟨dropTrailing isSpace (s.data.dropWhile isSpace)⟩

/-- The call `strings.TrimRight(s, "/")`, for a cutset of one character `c`. -/
def TrimRight (s : String) (c : Char) : String :=
  ⟨dropTrailing (fun x => x == c) s.data⟩

/-- The function `unicode.ToLower`: ASCII letters are mapped by the code, the
other code points through the Unicode case tables `tbl`, which are data of the
Go runtime. -/
def toLowerRune (tbl : Char → Char) (c : Char) : Char :=
  if c.toNat ≤ 0x7F then
    (if 'A'.toNat ≤ c.toNat ∧ c.toNat ≤ 'Z'.toNat then Char.ofNat (c.toNat + 32) else c)
  else tbl c

/-- The function `strings.ToLower`. -/
def ToLower (tbl : Char → Char) (s : String) : String :=
  ⟨s.data.map (toLowerRune tbl)⟩

/-! ## Errors -/

/-- The values of type `error` that the backend handles: the sentinel
`ErrNotFound`, the values built by `errors.New` in the code, and the errors
that come back from `database/sql`, each with the text of its `Error()`. -/
inductive GoError where
  | ErrNotFound
  | New (text : String)
  | driver (text : String)
  deriving DecidableEq, Repr

/-- The method `Error()`. -/
def GoError.Error : GoError → String
  | .ErrNotFound => "not found"
  | .New t => t
  | .driver t => t

/-! ## books_store.go: the record and its validation -/

/-- The struct `Book`. -/
structure Book where
  ID : Int
  Title : String
  Author : String
  Year : Int
  deriving DecidableEq, Repr

/-- The zero value `Book{}`. -/
def Book.zero : Book := ⟨0, "", "", 0⟩

/-- The function `validateBook`. -/
def validateBook (b : Book) : Option GoError :=
  if TrimSpace b.Title = "" then
    some (.New "title is required")
  else if TrimSpace b.Author = "" then
    some (.New "author is required")
  else if b.Year ≤ 0 then
    some (.New "year must be > 0")
  else
    none

/-! ## The `net/url` package: the struct `URL` and its method `String` -/

/-- The struct `url.Userinfo`. -/
structure Userinfo where
  username : String
  password : String
  passwordSet : Bool
  deriving DecidableEq, Repr

/-- The struct `url.URL`. -/
structure URL where
  Scheme : String
  Opaque : String
  User : Option Userinfo
  Host : String
  Path : String
  RawPath : String
  OmitHost : Bool
  ForceQuery : Bool
  RawQuery : String
  Fragment : String
  RawFragment : String
  deriving DecidableEq, Repr

/-- The escaping modes of `net/url` that `URL.String` uses. -/
inductive encoding where
  | encodePath
  | encodeHost
  | encodeUserPassword
  | encodeFragment
  deriving DecidableEq, Repr

/-- The UTF-8 encoding of a code point, as a list of bytes. -/
def utf8Bytes (c : Char) : List Nat :=
  let n := c.toNat
  if n < 0x80 then [n]
  else if n < 0x800 then [0xC0 + n / 64, 0x80 + n % 64]
  else if n < 0x10000 then [0xE0 + n / 4096, 0x80 + n / 64 % 64, 0x80 + n % 64]
  else [0xF0 + n / 262144, 0x80 + n / 4096 % 64, 0x80 + n / 64 % 64, 0x80 + n % 64]

/-- The bytes of a string. -/
def bytesOf (s : String) : List Nat :=
  s.data.flatMap utf8Bytes

/-- The function `shouldEscape` of `net/url`, on a byte `b`; the characters
39 and 34 are the single and the double quote. -/
def shouldEscape (b : Nat) (mode : encoding) : Bool :=
  if b ≥ 0x80 then true else
  let c := Char.ofNat b
  if c.isAlphanum then false
  else if mode = .encodeHost ∧ c ∈ ['!', '$', '&', Char.ofNat 39, '(', ')', '*', '+', ',', ';', '=', ':',
      '[', ']', '<', '>', Char.ofNat 34] then
    false
  else if c ∈ ['-', '_', '.', '~'] then false
  else if c ∈ ['$', '&', '+', ',', '/', ':', ';', '=', '?', '@'] then
    match mode with
    | .encodePath => c == '?'
    | .encodeUserPassword => c == '@' || c == '/' || c == '?' || c == ':'
    | .encodeFragment => false
    | .encodeHost => true
  else if mode = .encodeFragment ∧ c ∈ ['!', '(', ')', '*'] then false
  else true

/-- The upper-case hexadecimal digit of `d < 16`. -/
def upperhex (d : Nat) : Char :=
  if d < 10 then Char.ofNat (48 + d) else Char.ofNat (55 + d)

/-- The function `escape` of `net/url`: every byte that `shouldEscape` selects
is written as `%XX`; the other bytes are ASCII and are kept. -/
def escape (s : String) (mode : encoding) : String :=
  ⟨(bytesOf s).flatMap fun b =>
    if shouldEscape b mode then ['%', upperhex (b / 16), upperhex (b % 16)] else [Char.ofNat b]⟩

/-- The value of a hexadecimal digit, `none` when `c` is not one. -/
def unhex (c : Char) : Option Nat :=
  let n := c.toNat
  if 48 ≤ n ∧ n ≤ 57 then some (n - 48)
  else if 97 ≤ n ∧ n ≤ 102 then some (n - 97 + 10)
  else if 65 ≤ n ∧ n ≤ 70 then some (n - 65 + 10)
  else none

/-- The function `unescape` of `net/url` for a path or a fragment: the bytes
the text decodes to, `none` for a malformed `%` sequence. -/
def unescape : List Char → Option (List Nat)
  | [] => some []
  | '%' :: h :: l :: rest =>
    match unhex h, unhex l, unescape rest with
    | some a, some b, some r => some ((16 * a + b) :: r)
    | _, _, _ => none
  | '%' :: _ => none
  | c :: rest =>
    match unescape rest with
    | some r => some (utf8Bytes c ++ r)
    | none => none

/-- The function `validEncoded` of `net/url`. -/
def validEncoded (s : String) (mode : encoding) : Bool :=
  (bytesOf s).all fun b =>
    let c := Char.ofNat b
    if b < 0x80 ∧ c ∈ ['!', '$', '&', Char.ofNat 39, '(', ')', '*', '+', ',', ';', '=', ':', '@', '[', ']', '%'] then
      true
    else !shouldEscape b mode

/-- The method `URL.EscapedPath`. -/
def URL.EscapedPath (u : URL) : String :=
  if u.RawPath ≠ "" ∧ validEncoded u.RawPath .encodePath = true
      ∧ unescape u.RawPath.data = some (bytesOf u.Path) then
    u.RawPath
  else if u.Path = "*" then "*"
  else escape u.Path .encodePath

/-- The method `URL.EscapedFragment`. -/
def URL.EscapedFragment (u : URL) : String :=
  if u.RawFragment ≠ "" ∧ validEncoded u.RawFragment .encodeFragment = true
      ∧ unescape u.RawFragment.data = some (bytesOf u.Fragment) then
    u.RawFragment
  else escape u.Fragment .encodeFragment

/-- The method `Userinfo.String`. -/
def Userinfo.String (ui : Userinfo) : String :=
  escape ui.username .encodeUserPassword ++
    (if ui.passwordSet then ":" ++ escape ui.password .encodeUserPassword else "")

/-- The authority part that `URL.String` writes: `//`, the user information
and the host. -/
def URL.authority (u : URL) : String :=
  if u.Scheme ≠ "" ∨ u.Host ≠ "" ∨ u.User.isSome then
    if u.OmitHost = true ∧ u.Host = "" ∧ u.User.isNone then ""
    else
      (if u.Host ≠ "" ∨ u.Path ≠ "" ∨ u.User.isSome then "//" else "") ++
      (match u.User with
        | some ui => ui.String ++ "@"
        | none => "") ++
      (if u.Host ≠ "" then escape u.Host .encodeHost else "")
  else ""

/-- The method `URL.String`. -/
def URL.String (u : URL) : String :=
  let scheme := if u.Scheme ≠ "" then u.Scheme ++ ":" else ""
  let body :=
    if u.Opaque ≠ "" then scheme ++ u.Opaque
    else
      let pre := scheme ++ u.authority
      let path := u.EscapedPath
      let slash := if path ≠ "" ∧ path.data.head? ≠ some '/' ∧ u.Host ≠ "" then "/" else ""
      let dot := if pre ++ slash = "" ∧ (path.data.takeWhile (fun c => c != '/')).contains ':' then "./" else ""
      pre ++ slash ++ dot ++ path
  let query := if u.ForceQuery = true ∨ u.RawQuery ≠ "" then "?" ++ u.RawQuery else ""
  let fragment := if u.Fragment ≠ "" then "#" ++ u.EscapedFragment else ""
  body ++ query ++ fragment

/-! ## url_processor.go -/

/-- The function `cloneURL`: a copy of the struct. -/
def cloneURL (u : URL) : URL := u

/-- The function `applyCanonical`; the URL it leaves behind. -/
def applyCanonical (u : URL) : URL :=
  let u := { u with RawQuery := "" }
  let u := { u with ForceQuery := false }
  let u := { u with Fragment := "" }
  let u := { u with Path := TrimRight u.Path '/' }
  if u.Path = "" then { u with Path := "/" } else u

/-- The function `applyRedirection`; the URL it leaves behind. -/
def applyRedirection (tbl : Char → Char) (u : URL) : URL :=
  let u := { u with Host := "www.byfood.com" }
  let u := { u with Scheme := ToLower tbl u.Scheme }
  let u := { u with Host := ToLower tbl u.Host }
  let u := { u with Path := ToLower tbl u.Path }
  let u := { u with RawQuery := ToLower tbl u.RawQuery }
  { u with Fragment := ToLower tbl u.Fragment }

/-- The function `processURL`. -/
def processURL (tbl : Char → Char) (u : URL) (op : String) : String × Option GoError :=
  if op = "canonical" then
    let out := cloneURL u
    let out := applyCanonical out
    (out.String, none)
  else if op = "redirection" then
    let out := cloneURL u
    let out := applyRedirection tbl out
    (out.String, none)
  else if op = "all" then
    let out := cloneURL u
    let out := applyCanonical out
    let out := applyRedirection tbl out
    (out.String, none)
  else
    ("", some (.New "unsupported operation"))

/-- The function `isValidOperation`. -/
def isValidOperation (op : String) : Bool :=
  op == "canonical" || op == "redirection" || op == "all"

/-- The URL that `url.Parse` returns for
`https://BYFOOD.com/food-EXPeriences?query=abc/`. -/
def sampleURL : URL :=
  { Scheme := "https", Opaque := "", User := none, Host := "BYFOOD.com",
    Path := "/food-EXPeriences", RawPath := "", OmitHost := false, ForceQuery := false,
    RawQuery := "query=abc/", Fragment := "", RawFragment := "" }

/-- The URL that `url.Parse` returns for
`https://BYFOOD.com/food-EXPeriences?query=ABC/`. -/
def sampleURLUpper : URL :=
  { sampleURL with RawQuery := "query=ABC/" }

/-! ## The `strconv` package -/

/-- The two errors of `strconv`: `ErrSyntax` and `ErrRange`. -/
inductive NumError where
  | ErrSyntax
  | ErrRange
  deriving DecidableEq, Repr

/-- The loop of `strconv.ParseUint(s, 10, 64)` over the digits, with `n` the
value read so far: a character that is not a decimal digit is a syntax error,
a value above `2^64 - 1` a range error. -/
def parseUintLoop : List Char → Nat → Except NumError Nat
  | [], n => .ok n
  | c :: cs, n =>
    if '0'.toNat ≤ c.toNat ∧ c.toNat ≤ '9'.toNat then
      let d := c.toNat - '0'.toNat
      if n ≥ (2 ^ 64 - 1) / 10 + 1 then .error .ErrRange
      else if n * 10 + d > 2 ^ 64 - 1 then .error .ErrRange
      else parseUintLoop cs (n * 10 + d)
    else .error .ErrSyntax

/-- The call `strconv.ParseUint(s, 10, 64)`. -/
def ParseUint (s : List Char) : Except NumError Nat :=
  if s = [] then .error .ErrSyntax else parseUintLoop s 0

/-- The magnitude and sign checks of `strconv.ParseInt(s, 10, 64)` once the
sign is taken off. -/
def parseIntSigned (neg : Bool) (digits : List Char) : Except NumError Int :=
  match ParseUint digits with
  | .error .ErrSyntax => .error .ErrSyntax
  | .error .ErrRange => .error .ErrRange
  | .ok un =>
    if neg = false ∧ un ≥ 2 ^ 63 then .error .ErrRange
    else if neg = true ∧ un > 2 ^ 63 then .error .ErrRange
    else .ok (if neg then -(un : Int) else (un : Int))

/-- The call `strconv.ParseInt(s, 10, 64)`. -/
def ParseInt (s : String) : Except NumError Int :=
  match s.data with
  | [] => .error .ErrSyntax
  | '+' :: rest => parseIntSigned false rest
  | '-' :: rest => parseIntSigned true rest
  | cs => parseIntSigned false cs

/-! ## The table `books` behind `database/sql` (schema of db.go) -/

/-- The state of the backend: the rows of the table `books`, and the largest
identifier AUTOINCREMENT has handed out so far. -/
structure DB where
  rows : List Book
  seq : Int
  deriving DecidableEq, Repr

/-- What the driver reports for one call of the store, apart from the table:
`exec` is the error of `ExecContext`, `QueryContext` or `QueryRowContext`
(deadline exceeded, cancellation, I/O, database full), `res` the error of `LastInsertId`,
`RowsAffected` or of reading the rows. `none` is a call that went through. -/
structure Fault where
  exec : Option String
  res : Option String
  deriving DecidableEq, Repr

/-- The driver reports no error. -/
def Fault.none : Fault := ⟨Option.none, Option.none⟩

/-- The type `sql.Result`. -/
structure Result where
  LastInsertId : Except GoError Int
  RowsAffected : Except GoError Int

/-- The identifier AUTOINCREMENT gives the next row: one more than the largest
identifier the table has ever held. -/
def DB.nextID (db : DB) : Int :=
  (db.rows.foldl (fun m r => max m r.ID) db.seq) + 1

/-- Packs what `LastInsertId` and `RowsAffected` return. -/
def Fault.result (f : Fault) (id n : Int) : Result :=
  match f.res with
  | some e => ⟨.error (.driver e), .error (.driver e)⟩
  | Option.none => ⟨.ok id, .ok n⟩

/-- The statement `INSERT INTO books(title, author, year) VALUES(?, ?, ?)`. -/
def DB.execInsert (db : DB) (f : Fault) (title author : String) (year : Int) :
    Except GoError Result × DB :=
  match f.exec with
  | some e => (.error (.driver e), db)
  | Option.none =>
    if year ≤ 0 then (.error (.driver "CHECK constraint failed: year > 0"), db)
    else
      let id := db.nextID
      (.ok (f.result id 1), { rows := db.rows ++ [⟨id, title, author, year⟩], seq := id })

/-- The statement `UPDATE books SET title = ?, author = ?, year = ? WHERE id = ?`. -/
def DB.execUpdate (db : DB) (f : Fault) (title author : String) (year id : Int) :
    Except GoError Result × DB :=
  match f.exec with
  | some e => (.error (.driver e), db)
  | Option.none =>
    let n := ((db.rows.filter fun r => r.ID == id).length : Int)
    if n ≠ 0 ∧ year ≤ 0 then (.error (.driver "CHECK constraint failed: year > 0"), db)
    else
      (.ok (f.result db.seq n),
        { db with rows := db.rows.map fun r => if r.ID == id then ⟨r.ID, title, author, year⟩ else r })

/-- The statement `DELETE FROM books WHERE id = ?`. -/
def DB.execDelete (db : DB) (f : Fault) (id : Int) : Except GoError Result × DB :=
  match f.exec with
  | some e => (.error (.driver e), db)
  | Option.none =>
    let n := ((db.rows.filter fun r => r.ID == id).length : Int)
    (.ok (f.result db.seq n), { db with rows := db.rows.filter fun r => !(r.ID == id) })

/-- The query `SELECT id, title, author, year FROM books WHERE id = ?` followed
by `Scan`: the row, `none` for `sql.ErrNoRows`. -/
def DB.queryRow (db : DB) (f : Fault) (id : Int) : Except GoError (Option Book) :=
  match f.exec with
  | some e => .error (.driver e)
  | Option.none => .ok (db.rows.find? fun r => r.ID == id)

/-- The query `SELECT id, title, author, year FROM books ORDER BY id ASC`. -/
def DB.query (db : DB) (f : Fault) : Except GoError (List Book) :=
  match f.exec with
  | some e => .error (.driver e)
  | Option.none => .ok (db.rows.insertionSort fun a b => a.ID ≤ b.ID)

/-! ## books_store.go: the store -/

/-- The method `BookStore.List`. -/
def BookStore.List (db : DB) (f : Fault) : List Book × Option GoError :=
  match db.query f with
  | .error err => ([], some err)
  | .ok rows =>
    match f.res with
    | some e => ([], some (.driver e))
    | Option.none => (rows, none)

/-- The method `BookStore.Get`. -/
def BookStore.Get (db : DB) (f : Fault) (id : Int) : Book × Option GoError :=
  match db.queryRow f id with
  | .ok Option.none => (Book.zero, some .ErrNotFound)
  | .ok (some b) => (b, none)
  | .error err => (Book.zero, some err)

/-- The method `BookStore.Create`. -/
def BookStore.Create (db : DB) (f : Fault) (b : Book) : (Book × Option GoError) × DB :=
  match validateBook b with
  | some err => ((Book.zero, some err), db)
  | Option.none =>
    match db.execInsert f b.Title b.Author b.Year with
    | (.error err, db) => ((Book.zero, some err), db)
    | (.ok res, db) =>
      match res.LastInsertId with
      | .error err => ((Book.zero, some err), db)
      | .ok id => (({ b with ID := id }, none), db)

/-- The method `BookStore.Update`. -/
def BookStore.Update (db : DB) (f : Fault) (id : Int) (b : Book) : (Book × Option GoError) × DB :=
  let b := { b with ID := id }
  match validateBook b with
  | some err => ((Book.zero, some err), db)
  | Option.none =>
    match db.execUpdate f b.Title b.Author b.Year id with
    | (.error err, db) => ((Book.zero, some err), db)
    | (.ok res, db) =>
      match res.RowsAffected with
      | .error err => ((Book.zero, some err), db)
      | .ok n => if n = 0 then ((Book.zero, some .ErrNotFound), db) else ((b, none), db)

/-- The method `BookStore.Delete`. -/
def BookStore.Delete (db : DB) (f : Fault) (id : Int) : Option GoError × DB :=
  match db.execDelete f id with
  | (.error err, db) => (some err, db)
  | (.ok res, db) =>
    match res.RowsAffected with
    | .error err => (some err, db)
    | .ok n => if n = 0 then (some .ErrNotFound, db) else (none, db)

/-! ## books_handlers.go -/

/-- The JSON value a handler writes. -/
inductive Body where
  | error (msg : String)
  | book (b : Book)
  | books (bs : List Book)
  | processed (url : String)
  | empty
  deriving DecidableEq, Repr

/-- What a handler writes: the status code and the body. -/
structure Response where
  status : Nat
  body : Body
  deriving DecidableEq, Repr

/-- The function `parseIDParam` on the raw path parameter: the identifier, the
flag `ok`, and the response it has written, if any. -/
def parseIDParam (raw : String) : Int × Bool × Option Response :=
  match ParseInt raw with
  | .error _ => (0, false, some ⟨400, .error "invalid id"⟩)
  | .ok id =>
    if id ≤ 0 then (0, false, some ⟨400, .error "invalid id"⟩)
    else (id, true, none)

/-- The handler `GetBooksHandler`. -/
def BooksAPI.GetBooksHandler (db : DB) (f : Fault) : Response × DB :=
  match BookStore.List db f with
  | (_, some _) => (⟨500, .error "internal error"⟩, db)
  | (books, Option.none) => (⟨200, .books books⟩, db)

/-- The handler `CreateBookHandler`; `body` is the decoded request body,
`none` when decoding fails. -/
def BooksAPI.CreateBookHandler (db : DB) (f : Fault) (body : Option Book) : Response × DB :=
  match body with
  | Option.none => (⟨400, .error "invalid JSON body"⟩, db)
  | some b =>
    match BookStore.Create db f b with
    | ((_, some err), db) => (⟨400, .error err.Error⟩, db)
    | ((created, Option.none), db) => (⟨201, .book created⟩, db)

/-- The handler `GetBookHandler`; `raw` is the path parameter `id`. -/
def BooksAPI.GetBookHandler (db : DB) (f : Fault) (raw : String) : Response × DB :=
  match parseIDParam raw with
  | (_, false, w) => (w.getD ⟨200, .empty⟩, db)
  | (id, true, _) =>
    match BookStore.Get db f id with
    | (_, some .ErrNotFound) => (⟨404, .error "book not found"⟩, db)
    | (_, some _) => (⟨500, .error "internal error"⟩, db)
    | (b, Option.none) => (⟨200, .book b⟩, db)

/-- The handler `UpdateBookHandler`. -/
def BooksAPI.UpdateBookHandler (db : DB) (f : Fault) (raw : String) (body : Option Book) :
    Response × DB :=
  match parseIDParam raw with
  | (_, false, w) => (w.getD ⟨200, .empty⟩, db)
  | (id, true, _) =>
    match body with
    | Option.none => (⟨400, .error "invalid JSON body"⟩, db)
    | some b =>
      match BookStore.Update db f id b with
      | ((_, some .ErrNotFound), db) => (⟨404, .error "book not found"⟩, db)
      | ((_, some err), db) => (⟨400, .error err.Error⟩, db)
      | ((updated, Option.none), db) => (⟨200, .book updated⟩, db)

/-- The handler `DeleteBookHandler`. -/
def BooksAPI.DeleteBookHandler (db : DB) (f : Fault) (raw : String) : Response × DB :=
  match parseIDParam raw with
  | (_, false, w) => (w.getD ⟨200, .empty⟩, db)
  | (id, true, _) =>
    match BookStore.Delete db f id with
    | (some .ErrNotFound, db) => (⟨404, .error "book not found"⟩, db)
    | (some _, db) => (⟨500, .error "internal error"⟩, db)
    | (Option.none, db) => (⟨204, .empty⟩, db)

/-- The store of a fresh database. -/
def DB.empty : DB := ⟨[], 0⟩

/-- The book of the tests. -/
def dune : Book := ⟨0, "Dune", "Frank Herbert", 1965⟩

/-! ## url_processor.go: the handler -/

/-- The struct `processURLRequest`, the decoded request body. -/
structure processURLRequest where
  URL : String
  Operation : String
  deriving DecidableEq, Repr

/-- The handler `ProcessURLHandler`; `body` is the decoded request body, `none`
when decoding fails, and `parse` is the library function `url.Parse`, `none`
for a URL it returns an error on. -/
def ProcessURLHandler (parse : String → Option URL) (tbl : Char → Char)
    (body : Option processURLRequest) : Response :=
  match body with
  | Option.none => ⟨400, .error "invalid JSON body"⟩
  | some req =>
    let req := { req with URL := TrimSpace req.URL }
    let req := { req with Operation := TrimSpace req.Operation }
    if req.URL = "" then ⟨400, .error "`url` is required"⟩
    else if req.Operation = "" then ⟨400, .error "`operation` is required"⟩
    else if isValidOperation req.Operation = false then
      ⟨400, .error "`operation` must be one of: canonical, redirection, all"⟩
    else
      match parse req.URL with
      | Option.none => ⟨400, .error "invalid URL (must include scheme and host)"⟩
      | some parsed =>
        if parsed.Scheme = "" ∨ parsed.Host = "" then
          ⟨400, .error "invalid URL (must include scheme and host)"⟩
        else
          match processURL tbl parsed req.Operation with
          | (_, some err) => ⟨400, .error err.Error⟩
          | (processed, Option.none) => ⟨200, .processed processed⟩

/-- What `url.Parse` returns on the URLs of the tests; this table knows no
other URL. -/
def parseSamples (raw : String) : Option URL :=
  let blank : URL :=
    { Scheme := "", Opaque := "", User := Option.none, Host := "", Path := "", RawPath := "",
      OmitHost := false, ForceQuery := false, RawQuery := "", Fragment := "", RawFragment := "" }
  if raw = "https://BYFOOD.com/food-EXPeriences?query=abc/" then some sampleURL
  else if raw = "https://BYFOOD.com/food-EXPeriences?query=ABC/" then some sampleURLUpper
  else if raw = "https://byfood.com/x" then
    some { blank with Scheme := "https", Host := "byfood.com", Path := "/x" }
  else if raw = "byfood.com/abc" then some { blank with Path := "byfood.com/abc" }
  else if raw = "not a url" then some { blank with Path := "not a url", RawPath := "not a url" }
  else Option.none

/-! ## Auxiliary definitions for the statements -/

/-- The path `applyCanonical` leaves behind. -/
def canonicalPath (path : String) : String :=
  if TrimRight path '/' = "" then "/" else TrimRight path '/'

/-- The ASCII branch of `toLowerRune`. -/
def asciiToLower (c : Char) : Char :=
  if 'A'.toNat ≤ c.toNat ∧ c.toNat ≤ 'Z'.toNat then Char.ofNat (c.toNat + 32) else c

/-- The store with the book of the tests under identifier 1. -/
def DB.withDune : DB := ⟨[⟨1, "Dune", "Frank Herbert", 1965⟩], 1⟩

/-! ## Lemmas on the string functions -/

theorem dropTrailing_eq_rdropWhile (p : Char → Bool) (l : List Char) :
    dropTrailing p l = l.rdropWhile p := rfl

/-- What is cut off by `dropTrailing` is a run of elements satisfying `p`, and
what is left does not end in such an element. -/
theorem dropTrailing_decompose (p : Char → Bool) (l : List Char) :
    ∃ t, l = dropTrailing p l ++ t ∧ (∀ c ∈ t, p c = true) ∧
      ∀ x, (dropTrailing p l).getLast? = some x → p x = false := by
  refine ⟨(l.reverse.takeWhile p).reverse, ?_, ?_, ?_⟩
  · have h : (l.reverse.dropWhile p).reverse ++ (l.reverse.takeWhile p).reverse = l := by
      rw [← List.reverse_append, List.takeWhile_append_dropWhile, List.reverse_reverse]
    exact h.symm
  · intro c hc
    exact List.mem_takeWhile_imp (List.mem_reverse.mp hc)
  · intro x hx
    have h := List.head?_dropWhile_not p l.reverse
    simp only [dropTrailing, List.getLast?_reverse] at hx
    rw [hx] at h
    exact h

theorem dropTrailing_idem (p : Char → Bool) (l : List Char) :
    dropTrailing p (dropTrailing p l) = dropTrailing p l := by
  simp only [dropTrailing_eq_rdropWhile]
  exact List.rdropWhile_idempotent p l

/-- The path that `TrimRight` returns is the given one without a final run of
slashes, and does not end in a slash. -/
theorem TrimRight_slash_spec (s : String) :
    ∃ k, s.data = (TrimRight s '/').data ++ List.replicate k '/' ∧
      (TrimRight s '/').data.getLast? ≠ some '/' := by
  obtain ⟨t, h1, h2, h3⟩ := dropTrailing_decompose (fun x => x == '/') s.data
  refine ⟨t.length, ?_, ?_⟩
  · have ht : t = List.replicate t.length '/' := by
      rw [List.eq_replicate_iff]
      exact ⟨rfl, fun c hc => by simpa using h2 c hc⟩
    rw [← ht]
    exact h1
  · intro h
    have := h3 '/' h
    simp at this

theorem string_eq_of_data_eq {a b : String} (h : a.data = b.data) : a = b := by
  cases a; cases b; simp_all

theorem TrimRight_idem (s : String) (c : Char) :
    TrimRight (TrimRight s c) c = TrimRight s c := by
  apply string_eq_of_data_eq
  simp only [TrimRight]
  exact dropTrailing_idem _ _

/-- A string trims to the empty string exactly when it consists of white space. -/
theorem TrimSpace_eq_empty_iff (s : String) :
    TrimSpace s = "" ↔ ∀ c ∈ s.data, isSpace c = true := by
  constructor
  · intro h
    have h1 : dropTrailing isSpace (s.data.dropWhile isSpace) = [] := congrArg String.data h
    rw [dropTrailing_eq_rdropWhile, List.rdropWhile_eq_nil_iff] at h1
    have h2 : s.data.dropWhile isSpace = [] := by
      cases hd : s.data.dropWhile isSpace with
      | nil => rfl
      | cons x xs =>
        have hx := List.head?_dropWhile_not isSpace s.data
        rw [hd] at hx h1
        have := h1 x (List.mem_cons_self x xs)
        simp only [List.head?_cons] at hx
        rw [this] at hx
        cases hx
    simpa [List.dropWhile_eq_nil_iff] using h2
  · intro h
    apply string_eq_of_data_eq
    have h2 : s.data.dropWhile isSpace = [] := by
      simpa [List.dropWhile_eq_nil_iff] using h
    simp only [TrimSpace, h2]
    rfl

/-! ## Validation -/

theorem validateBook_eq_none_iff (b : Book) :
    validateBook b = none ↔
      TrimSpace b.Title ≠ "" ∧ TrimSpace b.Author ≠ "" ∧ 0 < b.Year := by
  unfold validateBook
  split_ifs with h1 h2 h3
  · simp [h1]
  · simp [h2]
  · simp [Int.not_lt.mpr h3]
  · simp [h1, h2, Int.not_le.mp h3]

/-- Validation does not look at the identifier. -/
theorem validateBook_with_ID (b : Book) (id : Int) :
    validateBook { b with ID := id } = validateBook b := rfl

/-- C1: `validateBook b` succeeds exactly when the trimmed title is non-empty,
the trimmed author is non-empty and the year is positive; otherwise it fails
with the message of the first rule that fails, in the order title, author,
year. A title or author trims to the empty string exactly when it is all white
space. A book with blank title, blank author and year 0 reports the title. -/
theorem validateBook_spec (b : Book) :
    (validateBook b = none ↔
      TrimSpace b.Title ≠ "" ∧ TrimSpace b.Author ≠ "" ∧ 0 < b.Year) ∧
    (TrimSpace b.Title = "" → validateBook b = some (.New "title is required")) ∧
    (TrimSpace b.Title ≠ "" → TrimSpace b.Author = "" →
      validateBook b = some (.New "author is required")) ∧
    (TrimSpace b.Title ≠ "" → TrimSpace b.Author ≠ "" → b.Year ≤ 0 →
      validateBook b = some (.New "year must be > 0")) ∧
    (TrimSpace b.Title = "" ↔ ∀ c ∈ b.Title.data, isSpace c = true) ∧
    (TrimSpace b.Author = "" ↔ ∀ c ∈ b.Author.data, isSpace c = true) ∧
    validateBook ⟨0, " \t", "", 0⟩ = some (.New "title is required") := by
  refine ⟨validateBook_eq_none_iff b, ?_, ?_, ?_, TrimSpace_eq_empty_iff _,
    TrimSpace_eq_empty_iff _, by decide⟩
  · intro h1
    simp [validateBook, h1]
  · intro h1 h2
    simp [validateBook, h1, h2]
  · intro h1 h2 h3
    simp [validateBook, h1, h2, h3]

/-! ## The URL processor -/

theorem ToLower_host (tbl : Char → Char) : ToLower tbl "www.byfood.com" = "www.byfood.com" := by
  rfl

theorem ToLower_empty (tbl : Char → Char) : ToLower tbl "" = "" := by
  rfl

theorem ToLower_slash (tbl : Char → Char) : ToLower tbl "/" = "/" := by
  rfl

theorem applyCanonical_eq (u : URL) :
    applyCanonical u =
      { u with RawQuery := "", ForceQuery := false, Fragment := "", Path := canonicalPath u.Path } := by
  unfold applyCanonical canonicalPath
  by_cases h : TrimRight u.Path '/' = "" <;> simp [h]

theorem applyRedirection_eq (tbl : Char → Char) (u : URL) :
    applyRedirection tbl u =
      { u with Host := "www.byfood.com", Scheme := ToLower tbl u.Scheme,
               Path := ToLower tbl u.Path, RawQuery := ToLower tbl u.RawQuery,
               Fragment := ToLower tbl u.Fragment } := by
  simp [applyRedirection, ToLower_host]

/-- C2: `processURL u "all"` is the rendering of the redirection transformation
applied to the canonical transformation of `u`; that URL has no query and no
fragment, the host `www.byfood.com`, the lower-cased scheme of `u`, and as path
the lower-cased path of `u` without its trailing slashes, `/` when nothing is
left. The URL of the test renders as in the test. -/
theorem processURL_all (tbl : Char → Char) (u : URL) :
    processURL tbl u "all" = ((applyRedirection tbl (applyCanonical u)).String, none) ∧
    (applyRedirection tbl (applyCanonical u)).RawQuery = "" ∧
    (applyRedirection tbl (applyCanonical u)).ForceQuery = false ∧
    (applyRedirection tbl (applyCanonical u)).Fragment = "" ∧
    (applyRedirection tbl (applyCanonical u)).Host = "www.byfood.com" ∧
    (applyRedirection tbl (applyCanonical u)).Scheme = ToLower tbl u.Scheme ∧
    (applyRedirection tbl (applyCanonical u)).Path =
      ToLower tbl (if TrimRight u.Path '/' = "" then "/" else TrimRight u.Path '/') ∧
    (TrimRight u.Path '/' = "" → (applyRedirection tbl (applyCanonical u)).Path = "/") ∧
    (∃ k, u.Path.data = (TrimRight u.Path '/').data ++ List.replicate k '/' ∧
      (TrimRight u.Path '/').data.getLast? ≠ some '/') ∧
    processURL (fun c => c) sampleURL "all" = ("https://www.byfood.com/food-experiences", none) := by
  refine ⟨?_, ?_, ?_, ?_, ?_, ?_, ?_, ?_, TrimRight_slash_spec u.Path, by decide⟩
  · simp [processURL, cloneURL]
  · simp [applyRedirection_eq, applyCanonical_eq, ToLower_empty]
  · simp [applyRedirection_eq, applyCanonical_eq]
  · simp [applyRedirection_eq, applyCanonical_eq, ToLower_empty]
  · simp [applyRedirection_eq]
  · simp [applyRedirection_eq, applyCanonical_eq]
  · simp [applyRedirection_eq, applyCanonical_eq, canonicalPath]
  · intro h
    simp [applyRedirection_eq, applyCanonical_eq, canonicalPath, h, ToLower_slash]

/-- C3: `processURL u "canonical"` renders the URL `applyCanonical u`, whose
query and fragment are empty, whose scheme and host are those of `u`, and whose
path is the path of `u` without its trailing slashes (nothing else changed),
`/` when nothing is left. The URL of the test renders as in the test. -/
theorem processURL_canonical (tbl : Char → Char) (u : URL) :
    processURL tbl u "canonical" = ((applyCanonical u).String, none) ∧
    (applyCanonical u).RawQuery = "" ∧
    (applyCanonical u).ForceQuery = false ∧
    (applyCanonical u).Fragment = "" ∧
    (applyCanonical u).Scheme = u.Scheme ∧
    (applyCanonical u).Host = u.Host ∧
    (applyCanonical u).Path = (if TrimRight u.Path '/' = "" then "/" else TrimRight u.Path '/') ∧
    (∃ k, u.Path.data = (TrimRight u.Path '/').data ++ List.replicate k '/' ∧
      (TrimRight u.Path '/').data.getLast? ≠ some '/') ∧
    processURL (fun c => c) sampleURL "canonical" = ("https://BYFOOD.com/food-EXPeriences", none) := by
  refine ⟨?_, ?_, ?_, ?_, ?_, ?_, ?_, TrimRight_slash_spec u.Path, by decide⟩
  · simp [processURL, cloneURL]
  all_goals simp [applyCanonical_eq, canonicalPath]

theorem ToLower_data (tbl : Char → Char) (s : String) :
    (ToLower tbl s).data = s.data.map (toLowerRune tbl) := rfl

theorem toLowerRune_slash (tbl : Char → Char) : toLowerRune tbl '/' = '/' := by
  rfl

/-- C4: `processURL u "redirection"` renders the URL `applyRedirection u`,
whose host is `www.byfood.com` whatever the host of `u`, and whose scheme,
path, query and fragment are those of `u` in lower case; the trailing slashes
of the path stay, and a query that was present stays present. The URL of the
test renders as in the test. -/
theorem processURL_redirection (tbl : Char → Char) (u : URL) :
    processURL tbl u "redirection" = ((applyRedirection tbl u).String, none) ∧
    (applyRedirection tbl u).Host = "www.byfood.com" ∧
    (applyRedirection tbl u).Scheme = ToLower tbl u.Scheme ∧
    (applyRedirection tbl u).Path = ToLower tbl u.Path ∧
    (applyRedirection tbl u).RawQuery = ToLower tbl u.RawQuery ∧
    (applyRedirection tbl u).Fragment = ToLower tbl u.Fragment ∧
    (applyRedirection tbl u).ForceQuery = u.ForceQuery ∧
    (∀ p k, u.Path.data = p ++ List.replicate k '/' →
      (applyRedirection tbl u).Path.data = p.map (toLowerRune tbl) ++ List.replicate k '/') ∧
    ((applyRedirection tbl u).RawQuery = "" ↔ u.RawQuery = "") ∧
    processURL (fun c => c) sampleURLUpper "redirection" =
      ("https://www.byfood.com/food-experiences?query=abc/", none) := by
  refine ⟨?_, ?_, ?_, ?_, ?_, ?_, ?_, ?_, ?_, by decide⟩
  · simp [processURL, cloneURL]
  · simp [applyRedirection_eq]
  · simp [applyRedirection_eq]
  · simp [applyRedirection_eq]
  · simp [applyRedirection_eq]
  · simp [applyRedirection_eq]
  · simp [applyRedirection_eq]
  · intro p k h
    simp [applyRedirection_eq, ToLower_data, h, toLowerRune_slash]
  · simp only [applyRedirection_eq]
    constructor
    · intro h
      have h2 := congrArg String.data h
      rw [ToLower_data] at h2
      apply string_eq_of_data_eq
      simpa using h2
    · intro h
      rw [h]
      rfl

theorem toLowerRune_ascii (tbl : Char → Char) (c : Char) (h : c.toNat ≤ 0x7F) :
    toLowerRune tbl c = asciiToLower c := by
  simp [toLowerRune, asciiToLower, h]

set_option maxRecDepth 100000 in
theorem asciiToLower_table :
    ∀ n, n < 128 → (asciiToLower (Char.ofNat n)).toNat ≤ 0x7F ∧
      asciiToLower (asciiToLower (Char.ofNat n)) = asciiToLower (Char.ofNat n) := by
  decide

theorem asciiToLower_facts (c : Char) (h : c.toNat ≤ 0x7F) :
    (asciiToLower c).toNat ≤ 0x7F ∧ asciiToLower (asciiToLower c) = asciiToLower c := by
  have := asciiToLower_table c.toNat (by omega)
  rwa [Char.ofNat_toNat] at this

/-- The rune map is idempotent as soon as the case tables are: on ASCII this is
a fact of the code. -/
theorem toLowerRune_idem (tbl : Char → Char)
    (htbl : ∀ c : Char, 0x7F < c.toNat → toLowerRune tbl (tbl c) = tbl c) (c : Char) :
    toLowerRune tbl (toLowerRune tbl c) = toLowerRune tbl c := by
  by_cases h : c.toNat ≤ 0x7F
  · obtain ⟨h1, h2⟩ := asciiToLower_facts c h
    rw [toLowerRune_ascii tbl c h, toLowerRune_ascii tbl _ h1, h2]
  · have hc : toLowerRune tbl c = tbl c := by simp [toLowerRune, h]
    rw [hc]
    exact htbl c (by omega)

theorem ToLower_idem (tbl : Char → Char)
    (htbl : ∀ c : Char, 0x7F < c.toNat → toLowerRune tbl (tbl c) = tbl c) (s : String) :
    ToLower tbl (ToLower tbl s) = ToLower tbl s := by
  apply string_eq_of_data_eq
  simp only [ToLower_data, List.map_map]
  apply List.map_congr_left
  intro c _
  exact toLowerRune_idem tbl htbl c

theorem canonicalPath_idem (path : String) :
    canonicalPath (canonicalPath path) = canonicalPath path := by
  unfold canonicalPath
  by_cases h : TrimRight path '/' = ""
  · simp only [h, if_true]
    decide
  · simp only [h, if_false, TrimRight_idem]

/-- C5: the canonical transformation applied to its own result yields the same
URL, field by field, hence the same rendering; so does the redirection
transformation, given that the Unicode case tables `tbl` send every non-ASCII
code point to one that lower-casing leaves alone (as the tables of Go do). -/
theorem normalizer_idempotent (tbl : Char → Char) (u : URL) :
    applyCanonical (applyCanonical u) = applyCanonical u ∧
    processURL tbl (applyCanonical u) "canonical" = processURL tbl u "canonical" ∧
    ((∀ c : Char, 0x7F < c.toNat → toLowerRune tbl (tbl c) = tbl c) →
      applyRedirection tbl (applyRedirection tbl u) = applyRedirection tbl u ∧
      processURL tbl (applyRedirection tbl u) "redirection" =
        processURL tbl u "redirection") := by
  have hc : applyCanonical (applyCanonical u) = applyCanonical u := by
    simp [applyCanonical_eq, canonicalPath_idem]
  refine ⟨hc, ?_, ?_⟩
  · simp [processURL, cloneURL, hc]
  · intro htbl
    have hr : applyRedirection tbl (applyRedirection tbl u) = applyRedirection tbl u := by
      simp [applyRedirection_eq, ToLower_idem tbl htbl]
    exact ⟨hr, by simp [processURL, cloneURL, hr]⟩

/-- Idempotence at the URL of the tests, with case tables that leave every
non-ASCII code point alone. -/
theorem normalizer_idempotent_witness :
    applyCanonical (applyCanonical sampleURLUpper) = applyCanonical sampleURLUpper ∧
    applyRedirection (fun c => c) (applyRedirection (fun c => c) sampleURLUpper) =
      applyRedirection (fun c => c) sampleURLUpper ∧
    processURL (fun c => c) (applyRedirection (fun c => c) sampleURLUpper) "redirection" =
      processURL (fun c => c) sampleURLUpper "redirection" :=
  have h := normalizer_idempotent (fun c => c) sampleURLUpper
  have h2 := h.2.2 (fun c hc => by simp only [toLowerRune]; rw [if_neg (by omega)])
  ⟨h.1, h2.1, h2.2⟩

/-- C6: `processURL u op` fails exactly when `op` is none of `canonical`,
`redirection`, `all` (spelled so, in lower case), and then with the error
`unsupported operation` and the empty string; it succeeds exactly when
`isValidOperation op` holds. -/
theorem processURL_fails_iff (tbl : Char → Char) (u : URL) (op : String) :
    ((processURL tbl u op).2 ≠ none ↔
      ¬ (op = "canonical" ∨ op = "redirection" ∨ op = "all")) ∧
    ((processURL tbl u op).2 ≠ none ↔
      processURL tbl u op = ("", some (.New "unsupported operation"))) ∧
    ((processURL tbl u op).2 = none ↔ isValidOperation op = true) ∧
    processURL tbl u "ALL" = ("", some (.New "unsupported operation")) ∧
    processURL tbl u "Canonical" = ("", some (.New "unsupported operation")) := by
  refine ⟨?_, ?_, ?_, by simp [processURL], by simp [processURL]⟩
  · unfold processURL
    split_ifs with h1 h2 h3 <;> simp [*]
  · unfold processURL
    split_ifs with h1 h2 h3 <;> simp
  · unfold processURL isValidOperation
    split_ifs with h1 h2 h3 <;> simp [*]

/-! ## The handlers and the store -/

/-- C7, at the failing inputs: when the backend call of a valid create or
update fails, `CreateBookHandler` and `UpdateBookHandler` answer 400 with the
text of the driver error, where `GetBookHandler`, `DeleteBookHandler` and
`GetBooksHandler` answer 500 with `internal error`. -/
theorem create_update_backend_error_is_400 :
    BooksAPI.CreateBookHandler DB.empty ⟨some "database is locked", none⟩ (some dune) =
      (⟨400, .error "database is locked"⟩, DB.empty) ∧
    BooksAPI.UpdateBookHandler DB.withDune ⟨some "context deadline exceeded", none⟩ "1" (some dune) =
      (⟨400, .error "context deadline exceeded"⟩, DB.withDune) ∧
    BooksAPI.GetBookHandler DB.withDune ⟨some "database is locked", none⟩ "1" =
      (⟨500, .error "internal error"⟩, DB.withDune) ∧
    BooksAPI.DeleteBookHandler DB.withDune ⟨some "database is locked", none⟩ "1" =
      (⟨500, .error "internal error"⟩, DB.withDune) ∧
    BooksAPI.GetBooksHandler DB.withDune ⟨some "database is locked", none⟩ =
      (⟨500, .error "internal error"⟩, DB.withDune) := by
  decide

theorem foldl_max_ge_init (rows : List Book) (init : Int) :
    init ≤ rows.foldl (fun m r => max m r.ID) init := by
  induction rows generalizing init with
  | nil => simp
  | cons r rs ih =>
    simp only [List.foldl_cons]
    exact le_trans (le_max_left _ _) (ih _)

theorem foldl_max_ge_mem (rows : List Book) (init : Int) (r : Book) (h : r ∈ rows) :
    r.ID ≤ rows.foldl (fun m r => max m r.ID) init := by
  induction rows generalizing init with
  | nil => simp at h
  | cons x xs ih =>
    simp only [List.foldl_cons]
    rcases List.mem_cons.mp h with rfl | h
    · exact le_trans (le_max_right _ _) (foldl_max_ge_init xs _)
    · exact ih _ h

/-- The next identifier is larger than every identifier in the table. -/
theorem DB.lt_nextID (db : DB) (r : Book) (h : r ∈ db.rows) : r.ID < db.nextID := by
  have := foldl_max_ge_mem db.rows db.seq r h
  unfold DB.nextID
  omega

theorem find_missing (rows : List Book) (id : Int) (hid : ∀ r ∈ rows, r.ID ≠ id) :
    rows.find? (fun r => r.ID == id) = none := by
  rw [List.find?_eq_none]
  intro r hr
  simpa using hid r hr

theorem filter_missing (rows : List Book) (id : Int) (hid : ∀ r ∈ rows, r.ID ≠ id) :
    rows.filter (fun r => r.ID == id) = [] := by
  rw [List.filter_eq_nil_iff]
  intro r hr
  simpa using hid r hr

theorem filter_keep_missing (rows : List Book) (id : Int) (hid : ∀ r ∈ rows, r.ID ≠ id) :
    rows.filter (fun r => !(r.ID == id)) = rows := by
  rw [List.filter_eq_self]
  intro r hr
  simpa using hid r hr

theorem BookStore.Get_missing (db : DB) (id : Int) (hid : ∀ r ∈ db.rows, r.ID ≠ id) :
    BookStore.Get db Fault.none id = (Book.zero, some .ErrNotFound) := by
  simp [BookStore.Get, DB.queryRow, Fault.none, find_missing db.rows id hid]

theorem BookStore.Delete_missing (db : DB) (id : Int) (hid : ∀ r ∈ db.rows, r.ID ≠ id) :
    BookStore.Delete db Fault.none id = (some .ErrNotFound, db) := by
  simp [BookStore.Delete, DB.execDelete, Fault.none, Fault.result,
    filter_missing db.rows id hid, filter_keep_missing db.rows id hid]

theorem BookStore.Update_missing (db : DB) (id : Int) (b : Book)
    (hid : ∀ r ∈ db.rows, r.ID ≠ id) (hb : validateBook b = none) :
    BookStore.Update db Fault.none id b = ((Book.zero, some .ErrNotFound), db) := by
  have hmap : db.rows.map (fun r => if (r.ID == id) = true then
      (⟨r.ID, b.Title, b.Author, b.Year⟩ : Book) else r) = db.rows := by
    conv_rhs => rw [← List.map_id db.rows]
    apply List.map_congr_left
    intro r hr
    simp [hid r hr]
  simp only [BookStore.Update, validateBook_with_ID, hb, DB.execUpdate, Fault.none, Fault.result,
    filter_missing db.rows id hid, hmap]
  simp

/-- C8: for an identifier that has no row, `Get`, `Delete`, and `Update` with a
valid book, each fail with `ErrNotFound` and leave the table as it was; the
handlers answer 404. -/
theorem missing_id_is_not_found (db : DB) (id : Int) (b : Book)
    (hid : ∀ r ∈ db.rows, r.ID ≠ id) (hb : validateBook b = none) :
    BookStore.Get db Fault.none id = (Book.zero, some .ErrNotFound) ∧
    BookStore.Delete db Fault.none id = (some .ErrNotFound, db) ∧
    BookStore.Update db Fault.none id b = ((Book.zero, some .ErrNotFound), db) ∧
    ∀ raw, parseIDParam raw = (id, true, none) →
      BooksAPI.GetBookHandler db Fault.none raw = (⟨404, .error "book not found"⟩, db) ∧
      BooksAPI.DeleteBookHandler db Fault.none raw = (⟨404, .error "book not found"⟩, db) ∧
      BooksAPI.UpdateBookHandler db Fault.none raw (some b) =
        (⟨404, .error "book not found"⟩, db) := by
  refine ⟨BookStore.Get_missing db id hid, BookStore.Delete_missing db id hid,
    BookStore.Update_missing db id b hid hb, ?_⟩
  intro raw hraw
  refine ⟨?_, ?_, ?_⟩
  · simp [BooksAPI.GetBookHandler, hraw, BookStore.Get_missing db id hid]
  · simp [BooksAPI.DeleteBookHandler, hraw, BookStore.Delete_missing db id hid]
  · simp [BooksAPI.UpdateBookHandler, hraw, BookStore.Update_missing db id b hid hb]

/-- Identifier 9999 on the empty store, as in the tests. -/
theorem missing_id_is_not_found_witness :
    BookStore.Get DB.empty Fault.none 9999 = (Book.zero, some .ErrNotFound) ∧
    BookStore.Delete DB.empty Fault.none 9999 = (some .ErrNotFound, DB.empty) ∧
    BookStore.Update DB.empty Fault.none 9999 dune = ((Book.zero, some .ErrNotFound), DB.empty) ∧
    BooksAPI.GetBookHandler DB.empty Fault.none "9999" = (⟨404, .error "book not found"⟩, DB.empty) ∧
    BooksAPI.DeleteBookHandler DB.empty Fault.none "9999" =
      (⟨404, .error "book not found"⟩, DB.empty) ∧
    BooksAPI.UpdateBookHandler DB.empty Fault.none "9999" (some dune) =
      (⟨404, .error "book not found"⟩, DB.empty) :=
  have h := missing_id_is_not_found DB.empty 9999 dune (by simp [DB.empty]) (by decide)
  ⟨h.1, h.2.1, h.2.2.1, h.2.2.2 "9999" (by decide)⟩

/-- C9: on a valid book `Create` succeeds and returns the book with only the
identifier replaced by the one the store assigns, which is larger than every
identifier in the table and does not depend on the one supplied; a `Get` of
that identifier right afterwards returns the same book. -/
theorem create_then_get (db : DB) (b : Book) (hb : validateBook b = none) :
    BookStore.Create db Fault.none b =
      ((⟨db.nextID, b.Title, b.Author, b.Year⟩, none),
        ⟨db.rows ++ [⟨db.nextID, b.Title, b.Author, b.Year⟩], db.nextID⟩) ∧
    BookStore.Get (BookStore.Create db Fault.none b).2 Fault.none
        (BookStore.Create db Fault.none b).1.1.ID =
      ((BookStore.Create db Fault.none b).1.1, none) ∧
    (∀ r ∈ db.rows, r.ID < (BookStore.Create db Fault.none b).1.1.ID) ∧
    (∀ id, BookStore.Create db Fault.none { b with ID := id } = BookStore.Create db Fault.none b) := by
  have hy : ¬ b.Year ≤ 0 := by
    have := ((validateBook_eq_none_iff b).mp hb).2.2
    omega
  have hc : BookStore.Create db Fault.none b =
      ((⟨db.nextID, b.Title, b.Author, b.Year⟩, none),
        ⟨db.rows ++ [⟨db.nextID, b.Title, b.Author, b.Year⟩], db.nextID⟩) := by
    simp [BookStore.Create, hb, DB.execInsert, Fault.none, Fault.result, hy]
  refine ⟨hc, ?_, ?_, ?_⟩
  · rw [hc]
    have hnone : db.rows.find? (fun r => r.ID == db.nextID) = none :=
      find_missing db.rows db.nextID (fun r hr => ne_of_lt (db.lt_nextID r hr))
    simp [BookStore.Get, DB.queryRow, Fault.none, List.find?_append, hnone]
  · rw [hc]
    exact fun r hr => db.lt_nextID r hr
  · intro id
    simp [BookStore.Create, validateBook_with_ID]

/-- Creation on the empty store with the book of the tests. -/
theorem create_then_get_witness :
    BookStore.Create DB.empty Fault.none dune =
      ((⟨1, "Dune", "Frank Herbert", 1965⟩, none), ⟨[⟨1, "Dune", "Frank Herbert", 1965⟩], 1⟩) ∧
    BookStore.Get (BookStore.Create DB.empty Fault.none dune).2 Fault.none 1 =
      (⟨1, "Dune", "Frank Herbert", 1965⟩, none) :=
  have h := create_then_get DB.empty dune (by decide)
  ⟨h.1, h.2.1⟩

theorem parseIntSigned_range (neg : Bool) (digits : List Char) (v : Int)
    (h : parseIntSigned neg digits = .ok v) : -(2 ^ 63) ≤ v ∧ v < 2 ^ 63 := by
  unfold parseIntSigned at h
  split at h
  · simp at h
  · simp at h
  · rename_i un _
    cases neg
    · by_cases h1 : 9223372036854775808 ≤ un
      · simp [h1] at h
      · simp [h1] at h
        omega
    · by_cases h2 : 9223372036854775808 < un
      · simp [h2] at h
      · simp [h2] at h
        omega

/-- A value `ParseInt` returns fits a signed 64-bit integer. -/
theorem ParseInt_range (s : String) (v : Int) (h : ParseInt s = .ok v) :
    -(2 ^ 63) ≤ v ∧ v < 2 ^ 63 := by
  unfold ParseInt at h
  split at h
  · simp at h
  · exact parseIntSigned_range _ _ _ h
  · exact parseIntSigned_range _ _ _ h
  · exact parseIntSigned_range _ _ _ h

/-- C10: `parseIDParam` writes 400 `invalid id` and returns `ok = false` exactly
when the parameter does not parse as a decimal signed 64-bit integer or parses
to a value that is not positive, and then the handlers return that response
without calling the store; otherwise it returns the parsed value, which is
positive, and writes nothing. `abc`, `0` and `-1` are rejected. -/
theorem parseIDParam_spec (s : String) :
    (parseIDParam s = (0, false, some ⟨400, .error "invalid id"⟩) ↔
      ((∃ e, ParseInt s = .error e) ∨ ∃ v, ParseInt s = .ok v ∧ v ≤ 0)) ∧
    ((parseIDParam s).2.1 = false ↔
      parseIDParam s = (0, false, some ⟨400, .error "invalid id"⟩)) ∧
    (∀ v, ParseInt s = .ok v → 0 < v →
      parseIDParam s = (v, true, none) ∧ v < 2 ^ 63) ∧
    ((parseIDParam s).2.1 = true → 0 < (parseIDParam s).1 ∧ (parseIDParam s).2.2 = none ∧
      ParseInt s = .ok (parseIDParam s).1) ∧
    (∀ db f body, (parseIDParam s).2.1 = false →
      BooksAPI.GetBookHandler db f s = (⟨400, .error "invalid id"⟩, db) ∧
      BooksAPI.UpdateBookHandler db f s body = (⟨400, .error "invalid id"⟩, db) ∧
      BooksAPI.DeleteBookHandler db f s = (⟨400, .error "invalid id"⟩, db)) ∧
    parseIDParam "abc" = (0, false, some ⟨400, .error "invalid id"⟩) ∧
    parseIDParam "0" = (0, false, some ⟨400, .error "invalid id"⟩) ∧
    parseIDParam "-1" = (0, false, some ⟨400, .error "invalid id"⟩) ∧
    parseIDParam "9999" = (9999, true, none) := by
  refine ⟨?_, ?_, ?_, ?_, ?_, by decide, by decide, by decide, by decide⟩
  · unfold parseIDParam
    cases h : ParseInt s with
    | error e => simp
    | ok v =>
      by_cases hv : v ≤ 0
      · simp [hv]
      · simp [hv]
  · unfold parseIDParam
    cases h : ParseInt s with
    | error e => simp
    | ok v =>
      by_cases hv : v ≤ 0
      · simp [hv]
      · simp [hv]
  · intro v hv hpos
    refine ⟨?_, (ParseInt_range s v hv).2⟩
    simp [parseIDParam, hv, Int.not_le.mpr hpos]
  · unfold parseIDParam
    cases h : ParseInt s with
    | error e => simp
    | ok v =>
      by_cases hv : v ≤ 0
      · simp [hv]
      · simp [hv]
        omega
  · intro db f body
    unfold BooksAPI.GetBookHandler BooksAPI.UpdateBookHandler BooksAPI.DeleteBookHandler
    unfold parseIDParam
    cases h : ParseInt s with
    | error e => simp
    | ok v =>
      by_cases hv : v ≤ 0
      · simp [hv]
      · simp [hv]

/-! ## The process-url handler -/

theorem isValidOperation_iff (op : String) :
    isValidOperation op = true ↔ (op = "canonical" ∨ op = "redirection" ∨ op = "all") := by
  simp [isValidOperation, or_assoc]

theorem processURL_of_valid (tbl : Char → Char) (u : URL) (op : String)
    (h : isValidOperation op = true) : (processURL tbl u op).2 = none := by
  rcases (isValidOperation_iff op).mp h with h | h | h <;> subst h <;> simp [processURL]

/-- The handler on a decoded request, with the unreachable error branch of
`processURL` gone. -/
theorem ProcessURLHandler_eq (parse : String → Option URL) (tbl : Char → Char)
    (req : processURLRequest) :
    ProcessURLHandler parse tbl (some req) =
      if TrimSpace req.URL = "" then ⟨400, .error "`url` is required"⟩
      else if TrimSpace req.Operation = "" then ⟨400, .error "`operation` is required"⟩
      else if isValidOperation (TrimSpace req.Operation) = false then
        ⟨400, .error "`operation` must be one of: canonical, redirection, all"⟩
      else
        match parse (TrimSpace req.URL) with
        | Option.none => ⟨400, .error "invalid URL (must include scheme and host)"⟩
        | some parsed =>
          if parsed.Scheme = "" ∨ parsed.Host = "" then
            ⟨400, .error "invalid URL (must include scheme and host)"⟩
          else ⟨200, .processed (processURL tbl parsed (TrimSpace req.Operation)).1⟩ := by
  simp only [ProcessURLHandler]
  split_ifs with h1 h2 h3
  · rfl
  · rfl
  · rfl
  · cases hp : parse (TrimSpace req.URL) with
    | none => rfl
    | some parsed =>
      simp only []
      split_ifs with h4
      · rfl
      · have hv : isValidOperation (TrimSpace req.Operation) = true := by simpa using h3
        have hn := processURL_of_valid tbl parsed (TrimSpace req.Operation) hv
        cases hr : processURL tbl parsed (TrimSpace req.Operation) with
        | mk out err =>
          rw [hr] at hn
          simp only at hn
          subst hn
          rfl

/-- C11: on a decoded request `ProcessURLHandler` answers 400 with the first
message that applies, in the order: URL blank after trimming, operation blank
after trimming, operation none of `canonical`, `redirection`, `all`, URL that
does not parse or has an empty scheme or host; it answers 200 with the
normalized URL exactly when none applies. A bad operation together with a bad
URL reports the operation. -/
theorem ProcessURLHandler_order (parse : String → Option URL) (tbl : Char → Char)
    (req : processURLRequest) :
    (TrimSpace req.URL = "" →
      ProcessURLHandler parse tbl (some req) = ⟨400, .error "`url` is required"⟩) ∧
    (TrimSpace req.URL ≠ "" → TrimSpace req.Operation = "" →
      ProcessURLHandler parse tbl (some req) = ⟨400, .error "`operation` is required"⟩) ∧
    (TrimSpace req.URL ≠ "" → TrimSpace req.Operation ≠ "" →
      ¬ (TrimSpace req.Operation = "canonical" ∨ TrimSpace req.Operation = "redirection" ∨
        TrimSpace req.Operation = "all") →
      ProcessURLHandler parse tbl (some req) =
        ⟨400, .error "`operation` must be one of: canonical, redirection, all"⟩) ∧
    (TrimSpace req.URL ≠ "" →
      (TrimSpace req.Operation = "canonical" ∨ TrimSpace req.Operation = "redirection" ∨
        TrimSpace req.Operation = "all") →
      (parse (TrimSpace req.URL) = none ∨
        ∃ u, parse (TrimSpace req.URL) = some u ∧ (u.Scheme = "" ∨ u.Host = "")) →
      ProcessURLHandler parse tbl (some req) =
        ⟨400, .error "invalid URL (must include scheme and host)"⟩) ∧
    (TrimSpace req.URL ≠ "" →
      (TrimSpace req.Operation = "canonical" ∨ TrimSpace req.Operation = "redirection" ∨
        TrimSpace req.Operation = "all") →
      ∀ u, parse (TrimSpace req.URL) = some u → u.Scheme ≠ "" → u.Host ≠ "" →
        processURL tbl u (TrimSpace req.Operation) =
          ((processURL tbl u (TrimSpace req.Operation)).1, none) ∧
        ProcessURLHandler parse tbl (some req) =
          ⟨200, .processed (processURL tbl u (TrimSpace req.Operation)).1⟩) ∧
    ((ProcessURLHandler parse tbl (some req)).status = 200 ↔
      TrimSpace req.URL ≠ "" ∧
      (TrimSpace req.Operation = "canonical" ∨ TrimSpace req.Operation = "redirection" ∨
        TrimSpace req.Operation = "all") ∧
      ∃ u, parse (TrimSpace req.URL) = some u ∧ u.Scheme ≠ "" ∧ u.Host ≠ "") ∧
    ((ProcessURLHandler parse tbl (some req)).status ≠ 200 →
      (ProcessURLHandler parse tbl (some req)).status = 400) ∧
    ProcessURLHandler parse tbl (some ⟨"not a url", "nope"⟩) =
      ⟨400, .error "`operation` must be one of: canonical, redirection, all"⟩ ∧
    ProcessURLHandler parse tbl (some ⟨" ", " "⟩) = ⟨400, .error "`url` is required"⟩ ∧
    ProcessURLHandler parseSamples (fun c => c) (some ⟨"not a url", "all"⟩) =
      ⟨400, .error "invalid URL (must include scheme and host)"⟩ ∧
    ProcessURLHandler parseSamples (fun c => c) (some ⟨"byfood.com/abc", "all"⟩) =
      ⟨400, .error "invalid URL (must include scheme and host)"⟩ ∧
    ProcessURLHandler parseSamples (fun c => c)
        (some ⟨"https://BYFOOD.com/food-EXPeriences?query=abc/", "all"⟩) =
      ⟨200, .processed "https://www.byfood.com/food-experiences"⟩ := by
  have hvalid := isValidOperation_iff (TrimSpace req.Operation)
  refine ⟨?_, ?_, ?_, ?_, ?_, ?_, ?_, ?_, ?_, by decide, by decide, by decide⟩
  · intro h1
    simp [ProcessURLHandler_eq, h1]
  · intro h1 h2
    simp [ProcessURLHandler_eq, h1, h2]
  · intro h1 h2 h3
    have hf : isValidOperation (TrimSpace req.Operation) = false := by
      cases hv : isValidOperation (TrimSpace req.Operation) with
      | false => rfl
      | true => exact absurd (hvalid.mp hv) h3
    simp [ProcessURLHandler_eq, h1, h2, hf]
  · intro h1 h3 hp
    have hv : isValidOperation (TrimSpace req.Operation) = true := hvalid.mpr h3
    have h2 : TrimSpace req.Operation ≠ "" := by
      rcases h3 with h | h | h <;> rw [h] <;> decide
    rcases hp with hp | ⟨u, hp, hu⟩
    · simp [ProcessURLHandler_eq, h1, h2, hv, hp]
    · simp [ProcessURLHandler_eq, h1, h2, hv, hp, hu]
  · intro h1 h3 u hp hs hh
    have hv : isValidOperation (TrimSpace req.Operation) = true := hvalid.mpr h3
    have h2 : TrimSpace req.Operation ≠ "" := by
      rcases h3 with h | h | h <;> rw [h] <;> decide
    refine ⟨?_, ?_⟩
    · exact Prod.ext rfl (processURL_of_valid tbl u _ hv)
    · simp [ProcessURLHandler_eq, h1, h2, hv, hp, hs, hh]
  · rw [ProcessURLHandler_eq]
    split_ifs with h1 h2 h3
    · simp [h1]
    · simp [h2]
    · have : ¬ (TrimSpace req.Operation = "canonical" ∨ TrimSpace req.Operation = "redirection" ∨
          TrimSpace req.Operation = "all") := by
        intro h
        rw [hvalid.mpr h] at h3
        cases h3
      simp [this]
    · have hv : isValidOperation (TrimSpace req.Operation) = true := by simpa using h3
      have h3' := hvalid.mp hv
      cases hp : parse (TrimSpace req.URL) with
      | none => simp
      | some parsed =>
        simp only []
        split_ifs with h4
        · simp only [h1, not_false_eq_true, ne_eq, h3', true_and, Option.some.injEq,
            exists_eq_left']
          constructor
          · intro h; cases h
          · intro h
            rcases h4 with h4 | h4
            · exact absurd h4 h.1
            · exact absurd h4 h.2
        · simp only [not_or] at h4
          simp [h1, h3', h4.1, h4.2]
  · rw [ProcessURLHandler_eq]
    split_ifs with h1 h2 h3
    · simp
    · simp
    · simp
    · cases hp : parse (TrimSpace req.URL) with
      | none => simp
      | some parsed =>
        simp only []
        split_ifs with h4 <;> simp
  · simp only [ProcessURLHandler_eq]
    rfl
  · simp only [ProcessURLHandler_eq]
    rfl

/-! ## Validation failures in the store -/

/-- The errors of `validateBook` are the three messages, built by `errors.New`. -/
theorem validateBook_error_cases (b : Book) (e : GoError) (h : validateBook b = some e) :
    e = .New "title is required" ∨ e = .New "author is required" ∨
      e = .New "year must be > 0" := by
  unfold validateBook at h
  split_ifs at h <;> simp_all

/-- C12: when validation of `b` fails, `Create` and `Update` return the zero
book and the error of `validateBook b`, one of the three messages, and leave
the table as it was, whatever the identifier, the table and the state of the
backend: the backend is not reached, so `Update` on an identifier without a
row reports the validation failure and not `ErrNotFound`. -/
theorem invalid_book_is_rejected (db : DB) (f : Fault) (id : Int) (b : Book) (e : GoError)
    (hb : validateBook b = some e) :
    BookStore.Create db f b = ((Book.zero, some e), db) ∧
    BookStore.Update db f id b = ((Book.zero, some e), db) ∧
    (e = .New "title is required" ∨ e = .New "author is required" ∨
      e = .New "year must be > 0") ∧
    e ≠ .ErrNotFound ∧
    BooksAPI.CreateBookHandler db f (some b) = (⟨400, .error e.Error⟩, db) ∧
    (∀ raw, parseIDParam raw = (id, true, none) →
      BooksAPI.UpdateBookHandler db f raw (some b) = (⟨400, .error e.Error⟩, db)) := by
  have hcases := validateBook_error_cases b e hb
  have hne : e ≠ .ErrNotFound := by
    rcases hcases with h | h | h <;> rw [h] <;> simp
  have hc : BookStore.Create db f b = ((Book.zero, some e), db) := by
    simp [BookStore.Create, hb]
  have hu : BookStore.Update db f id b = ((Book.zero, some e), db) := by
    simp [BookStore.Update, validateBook_with_ID, hb]
  refine ⟨hc, hu, hcases, hne, ?_, ?_⟩
  · simp only [BooksAPI.CreateBookHandler, hc]
  · intro raw hraw
    simp only [BooksAPI.UpdateBookHandler, hraw, hu]

/-- A book with a blank title, updated under identifier 9999 on the empty
store while the backend is failing. -/
theorem invalid_book_is_rejected_witness :
    BookStore.Create DB.empty ⟨some "database is locked", none⟩ ⟨0, " ", "A", 0⟩ =
      ((Book.zero, some (.New "title is required")), DB.empty) ∧
    BookStore.Update DB.empty ⟨some "database is locked", none⟩ 9999 ⟨0, " ", "A", 0⟩ =
      ((Book.zero, some (.New "title is required")), DB.empty) ∧
    BooksAPI.UpdateBookHandler DB.empty ⟨some "database is locked", none⟩ "9999"
        (some ⟨0, " ", "A", 0⟩) =
      (⟨400, .error "title is required"⟩, DB.empty) :=
  have h := invalid_book_is_rejected DB.empty ⟨some "database is locked", none⟩ 9999
    ⟨0, " ", "A", 0⟩ (.New "title is required") (by decide)
  ⟨h.1, h.2.1, h.2.2.2.2.2 "9999" (by decide)⟩

end ByFood
